import Mathlib

/-!
Shallow embedding of the power-di dependency-injection container
(src/index.js and src/util.js) and proofs about its resolution algorithm.

Modelling conventions:
- JS objects registered in the container are the tagged union `Definition`
  (class / constant / function / factory), mirroring the shapes built by
  `_addClassDefinition`, `addConstant`, `addFunction`, `addFactory`.
- The registry `this.container` is an association list `List (String × Definition)`;
  JS property lookup is `List.lookup` (first match).
- Runtime values are `Value`; `Value.obj cls args ref` is an object produced by
  `new`, carrying an allocation counter `ref` so that JS reference identity is
  equality of `ref`.  `Value.undefined` is JS `undefined`.
- The ambient npm world (`require.resolve` / `require`) is a function
  `w : String → Option Value`: `w name = some v` means the module resolves to `v`.
- JS exceptions are `Except Err`; a thrown error is paired with the container
  state at the throw point, since JS mutations before a throw persist.
- `get`'s recursion is measured by explicit fuel; `none` means the fuel ran out
  (the JS code has no cycle guard and would recurse forever / blow the stack).
-/

namespace PowerDI

/-- Runtime values: `undefined` is JS `undefined`; `prim n` an opaque value
(constant, plain function, npm module, factory product); `classVal c` the
constructible class with id `c` itself; `obj c ref` an instance built by `new`
from class `c`, carrying its allocation id `ref` (what the user constructor
stores inside the instance is user code, opaque to the container, so only the
identity of the object is modelled). -/
inductive Value where
  | undefined : Value
  | prim : Nat → Value
  | classVal : Nat → Value
  | obj : Nat → Nat → Value
deriving DecidableEq, Repr

/-- Behaviour of a registered factory closure.  A JS factory receives the
container and returns a value; the behaviours modelled are returning a fixed
value and allocating a fresh object (reading the container's allocation
counter), which cover the container-visible effects the factory branch of
`get` exercises. -/
inductive FactoryBehavior where
  | constF : Value → FactoryBehavior
  | freshObj : FactoryBehavior
deriving DecidableEq, Repr

/-- A registered dependency, as stored by `_setDependency` in src/index.js:
classes carry the introspected constructor argument names (`null` when the
regex found none, modelled `Option`), the constructible (`file`), the
`isSingleton` flag and the lazily written `instance` cache (`inst`). -/
inductive Definition where
  | classDefn (args : Option (List String)) (file : Nat) (isSingleton : Bool) (inst : Option Value)
  | constantDefn (constant : Value)
  | functionDefn (func : Value)
  | factoryDefn (factory : FactoryBehavior)
deriving DecidableEq, Repr

/-- The errors thrown by src/index.js, one constructor per `throw new Error`
site, each carrying the offending name. -/
inductive Err where
  | duplicateName (name : String)
  | notFoundUserModule (name : String)
  | wrongKindFunction (name : String)
  | wrongKindConstant (name : String)
  | externalModuleNotFound (name : String)
deriving DecidableEq, Repr

/-- Container configuration (the JS `config` object after the constructor
merges user keys over the defaults).  `pre` is JS `config.prefix`, `npmPre` is
JS `config.npmPrefix` (present in the defaults but never read by `get`), and
`nodeModulePre` is JS `config.nodeModulePrefix` (the key `get` actually reads;
absent/empty is modelled as `""`, matching JS falsiness). -/
structure Config where
  pre : String
  npmPre : String
  nodeModulePre : String
deriving DecidableEq, Repr

/-- The container's mutable state: its configuration, the registry
`this.container`, and the allocation counter backing object identity. -/
structure ContainerState where
  config : Config
  registry : List (String × Definition)
  nextRef : Nat
deriving DecidableEq, Repr

/-- The character class `[A-Z0-9]` of the regex in `kebabCase` (src/util.js). -/
def isUpperOrDigit (c : Char) : Bool := c.isUpper || c.isDigit

/-- Character-level worker for `kebabCase`: the flag records whether the
previous character was part of an `[A-Z0-9]+` run (so no new `-` is started). -/
def kebabAux : Bool → List Char → List Char
  | _, [] => []
  | inRun, c :: rest =>
    if isUpperOrDigit c then
      (if inRun then [c.toLower] else ['-', c.toLower]) ++ kebabAux true rest
    else
      c :: kebabAux false rest

/-- src/util.js `kebabCase`: `str.replace(/[A-Z0-9]+/g, m => '-' + m.toLowerCase())`. -/
def kebabCase (s : String) : String := ⟨kebabAux false s.data⟩

/-- The dot-name step of `_getNodeModule` (src/index.js line 148):
`dashName.replace(new RegExp('-', 'g'), '.')`, i.e. every `-` becomes `.`. -/
def toDotCase (s : String) : String := ⟨s.data.map (fun c => if c = '-' then '.' else c)⟩

/-- src/util.js `getFunctionArgs`, abstracted over source-text introspection:
the regex `constructor\((.+)\)` needs at least one character between the
parentheses, so a constructor declaring zero parameters (or a class with no
explicit constructor) yields `null`; otherwise the comma-split trimmed
parameter names are returned in declared order.  Here the declared
parameter-name list is taken as given instead of re-parsing source text. -/
def getFunctionArgs (params : List String) : Option (List String) :=
  if params.isEmpty then none else some params

/-- src/util.js `nodeModuleExists`: `require.resolve(name)` succeeds. -/
def nodeModuleExists (w : String → Option Value) (name : String) : Bool :=
  (w name).isSome

/-- The ambient `require(name)`, meaningful when `nodeModuleExists` holds. -/
def requireModule (w : String → Option Value) (name : String) : Value :=
  (w name).getD Value.undefined

/-- JS `String.prototype.startsWith` on our strings. -/
def startsWithStr (s p : String) : Bool := s.data.take p.data.length == p.data

/-- src/index.js `has`: `this.container[depName] != null`. -/
def has (s : ContainerState) (depName : String) : Bool :=
  (List.lookup depName s.registry).isSome

/-- src/index.js `_setDependency`: throw `DuplicateNameError` when the name is
already bound, otherwise bind it (insertion order preserved, like a JS object). -/
def _setDependency (s : ContainerState) (name : String) (dep : Definition) :
    Except Err ContainerState :=
  match List.lookup name s.registry with
  | some _ => .error (.duplicateName name)
  | none => .ok { s with registry := s.registry ++ [(name, dep)] }

/-- src/index.js `addConstant`. -/
def addConstant (s : ContainerState) (name : String) (c : Value) : Except Err ContainerState :=
  _setDependency s name (.constantDefn c)

/-- src/index.js `addFunction`. -/
def addFunction (s : ContainerState) (name : String) (f : Value) : Except Err ContainerState :=
  _setDependency s name (.functionDefn f)

/-- src/index.js `addFactory`. -/
def addFactory (s : ContainerState) (name : String) (f : FactoryBehavior) :
    Except Err ContainerState :=
  _setDependency s name (.factoryDefn f)

/-- src/index.js `_createDepName`: prepend the configured source prefix. -/
def _createDepName (s : ContainerState) (name : String) : String :=
  s.config.pre ++ name

/-- The singleton flag computed by `_addClassDefinition` (src/index.js line 160):
`requiredFile.singleton === undefined || requiredFile.singleton === true`. -/
def isSingletonOf (singletonField : Option Bool) : Bool :=
  singletonField == none || singletonField == some true

/-- src/index.js `_addClassDefinition`: register a scanned class under its
prefixed name with introspected constructor arguments, no cached instance. -/
def _addClassDefinition (s : ContainerState) (rawName : String) (params : List String)
    (file : Nat) (singletonField : Option Bool) : Except Err ContainerState :=
  _setDependency s (_createDepName s rawName)
    (.classDefn (getFunctionArgs params) file (isSingletonOf singletonField) none)

/-- src/index.js `_getNodeModule`: try the name verbatim, then its kebab-cased
form, then the kebab-cased form with every `-` turned into `.`; require the
first that resolves, else throw `ExternalModuleNotFoundError`. -/
def getNodeModule (w : String → Option Value) (depName : String) : Except Err Value :=
  if nodeModuleExists w depName then .ok (requireModule w depName)
  else
    let dashName := kebabCase depName
    if nodeModuleExists w dashName then .ok (requireModule w dashName)
    else
      let dotName := toDotCase dashName
      if nodeModuleExists w dotName then .ok (requireModule w dotName)
      else .error (.externalModuleNotFound depName)

/-- The guard `dependency.isSingleton && dependency.instance` of src/index.js
line 87: the cached instance to return early, if any. -/
def cachedOf (isSingleton : Bool) (inst : Option Value) : Option Value :=
  if isSingleton then inst else none

/-- Invoke a factory closure on the container (src/index.js line 100:
`(dependency.factory)(this)`). -/
def runFactory : FactoryBehavior → ContainerState → Value × ContainerState
  | .constF v, s => (v, s)
  | .freshObj, s => (Value.obj 0 s.nextRef, { s with nextRef := s.nextRef + 1 })

/-- Write the instance cache of the (first) entry bound to `name`
(src/index.js line 111: `dependency.instance = instance`). -/
def setInstance : List (String × Definition) → String → Value → List (String × Definition)
  | [], _, _ => []
  | (k, d) :: rest, name, v =>
    if k == name then
      (k,
        match d with
        | .classDefn args file sing _ => .classDefn args file sing (some v)
        | other => other) :: rest
    else
      (k, d) :: setInstance rest name v

/-- Resolve a list of constructor-argument names left to right, threading the
container state, propagating the first thrown error with the state at the
throw point (the `for` loop of src/index.js lines 105-108). -/
def resolveArgsWith (g : ContainerState → String → Option (Except Err Value × ContainerState)) :
    ContainerState → List String → Option (Except Err (List Value) × ContainerState)
  | s, [] => some (.ok [], s)
  | s, a :: rest =>
    match g s a with
    | none => none
    | some (.error e, s1) => some (.error e, s1)
    | some (.ok v, s1) =>
      match resolveArgsWith g s1 rest with
      | none => none
      | some (.error e, s2) => some (.error e, s2)
      | some (.ok vs, s2) => some (.ok (v :: vs), s2)

/-- src/index.js `get`.  Branches, in source order: npm-prefix bypass or
registry miss go to `_getNodeModule`; cached singleton instance; plain
function; constant; factory; class with introspected args (resolve each
recursively, `new` the class, cache when singleton); class with `null` args
(`new dependency.file()`, no caching).  `none` means the fuel ran out. -/
def get (w : String → Option Value) (fuel : Nat) :
    ContainerState → String → Option (Except Err Value × ContainerState) :=
  match fuel with
  | 0 => fun _ _ => none
  | fuel' + 1 => fun s depName =>
    if s.config.nodeModulePre ≠ "" ∧ startsWithStr depName s.config.nodeModulePre then
      some (getNodeModule w depName, s)
    else
      match List.lookup depName s.registry with
      | none => some (getNodeModule w depName, s)
      | some (.functionDefn f) => some (.ok f, s)
      | some (.constantDefn c) => some (.ok c, s)
      | some (.factoryDefn fb) => some (.ok (runFactory fb s).1, (runFactory fb s).2)
      | some (.classDefn argsOpt file sing inst) =>
        match cachedOf sing inst with
        | some v => some (.ok v, s)
        | none =>
          match argsOpt with
          | some argNames =>
            match resolveArgsWith (get w fuel') s argNames with
            | none => none
            | some (.error e, s1) => some (.error e, s1)
            | some (.ok _vals, s1) =>
              let instVal := Value.obj file s1.nextRef
              let s2 : ContainerState := { s1 with nextRef := s1.nextRef + 1 }
              let s3 :=
                if sing then { s2 with registry := setInstance s2.registry depName instVal }
                else s2
              some (.ok instVal, s3)
          | none =>
            some (.ok (Value.obj file s.nextRef), { s with nextRef := s.nextRef + 1 })

/-- The class branch of `get` (src/index.js lines 87-116) as a standalone
function of the looked-up class definition's fields, used to state `get`'s
unfolding on a registered class. -/
def classResolve (w : String → Option Value) (fuel : Nat) (s : ContainerState) (n : String)
    (argsOpt : Option (List String)) (file : Nat) (sing : Bool) (inst : Option Value) :
    Option (Except Err Value × ContainerState) :=
  match cachedOf sing inst with
  | some v => some (.ok v, s)
  | none =>
    match argsOpt with
    | some argNames =>
      match resolveArgsWith (get w fuel) s argNames with
      | none => none
      | some (.error e, s1) => some (.error e, s1)
      | some (.ok _vals, s1) =>
        some (.ok (Value.obj file s1.nextRef),
          if sing then
            { s1 with
              nextRef := s1.nextRef + 1,
              registry := setInstance s1.registry n (Value.obj file s1.nextRef) }
          else { s1 with nextRef := s1.nextRef + 1 })
    | none =>
      some (.ok (Value.obj file s.nextRef), { s with nextRef := s.nextRef + 1 })

/-- src/index.js `getClass`: `NotFoundError` when unregistered, `WrongKindError`
for function and constant definitions, otherwise return `dependency.file`
(the constructible for a class, JS `undefined` for a factory). -/
def getClass (s : ContainerState) (depName : String) : Except Err Value :=
  match List.lookup depName s.registry with
  | none => .error (.notFoundUserModule depName)
  | some (.functionDefn _) => .error (.wrongKindFunction depName)
  | some (.constantDefn _) => .error (.wrongKindConstant depName)
  | some (.classDefn _ file _ _) => .ok (.classVal file)
  | some (.factoryDefn _) => .ok .undefined

/-! ## Spec-side definitions

These follow the words of the specification, for comparison with the
definitions above, which were translated from the source. -/

/-- The spec's description of `kebabCase`: every maximal run of uppercase
letters or digits is replaced by `-` followed by the lowercased run; every
other character is kept unchanged.  Written by run decomposition: at a run
start, take the whole maximal run at once. -/
def kebabSpec : List Char → List Char
  | [] => []
  | c :: rest =>
    if h : isUpperOrDigit c then
      '-' :: ((c :: rest).takeWhile isUpperOrDigit).map Char.toLower
        ++ kebabSpec ((c :: rest).dropWhile isUpperOrDigit)
    else c :: kebabSpec rest
termination_by l => l.length
decreasing_by
  · rw [List.dropWhile_cons_of_pos h]
    exact Nat.lt_succ_of_le (List.dropWhile_sublist _).length_le
  · simp

/-- The spec's description of external-module resolution: try the name
verbatim, then its dash-cased form, then the dot-cased dash-cased form, in
that order; the first that resolves is loaded, else
`ExternalModuleNotFoundError`. -/
def externalLookupSpec (w : String → Option Value) (n : String) : Except Err Value :=
  match w n with
  | some v => .ok v
  | none =>
    match w (kebabCase n) with
    | some v => .ok v
    | none =>
      match w (toDotCase (kebabCase n)) with
      | some v => .ok v
      | none => .error (.externalModuleNotFound n)

/-! ## Frame and acyclicity predicates -/

/-- The change `get` is allowed to make to a single registered definition:
none at all, or writing the `inst` cache of a singleton class definition. -/
def defFrame (d d' : Definition) : Prop :=
  d' = d ∨ ∃ a f i v, d = .classDefn a f true i ∧ d' = .classDefn a f true (some v)

/-- Frame relation between a registry before and after resolution: same names
in the same order, each definition unchanged except possibly a singleton class
definition's instance cache being written. -/
def regFrame (r r' : List (String × Definition)) : Prop :=
  List.Forall₂ (fun p q => p.1 = q.1 ∧ defFrame p.2 q.2) r r'

/-- Acyclicity of the class-definition dependency graph (an edge from each
registered class definition to the definition registered under each of its
declared constructor-parameter names), expressed as a topological rank: every
declared parameter name of a registered class ranks strictly below the class's
own name.  A finite graph admits such a rank exactly when it is acyclic. -/
def ranked (rank : String → Nat) (r : List (String × Definition)) : Prop :=
  ∀ n args file sg i, List.lookup n r = some (.classDefn (some args) file sg i) →
    ∀ a ∈ args, rank a < rank n

/-! ## Concrete fixtures used by witnesses and counterexample evaluations -/

/-- An npm world with no modules installed. -/
def wEmpty : String → Option Value := fun _ => none

/-- An npm world containing exactly the module `socket.io`. -/
def wSock : String → Option Value := fun n => if n = "socket.io" then some (.prim 3) else none

/-- An npm world containing exactly the module `bcrypt`. -/
def wBcrypt : String → Option Value := fun n => if n = "bcrypt" then some (.prim 1) else none

/-- Default configuration (all prefixes empty). -/
def cfg0 : Config := { pre := "", npmPre := "", nodeModulePre := "" }

/-- Configuration with `nodeModulePrefix` set to `$` (the key `get` reads). -/
def cfgNpm : Config := { pre := "", npmPre := "", nodeModulePre := "$" }

/-- Configuration with `npmPrefix` set to `$`, as the README documents
(`new Container({npmPrefix: '$'})`); `get` never reads this key. -/
def cfgNpmDoc : Config := { pre := "", npmPre := "$", nodeModulePre := "" }

/-- A container with a zero-argument singleton class `Dog`, a one-argument
singleton class `Cat` depending on `Ball`, and a constant `Ball`. -/
def sZero : ContainerState :=
  { config := cfg0,
    registry := [("Dog", .classDefn none 1 true none),
                 ("Cat", .classDefn (some ["Ball"]) 2 true none),
                 ("Ball", .constantDefn (.prim 7))],
    nextRef := 0 }

/-- A container with one definition of each kind. -/
def sAll : ContainerState :=
  { config := cfg0,
    registry := [("C", .constantDefn (.prim 1)),
                 ("F", .functionDefn (.prim 2)),
                 ("K", .classDefn (some ["C"]) 3 true none),
                 ("Fac", .factoryDefn .freshObj)],
    nextRef := 0 }

/-- A container configured with `nodeModulePrefix` `$` that also has a local
registration under the prefixed name `$bcrypt`. -/
def sPre : ContainerState :=
  { config := cfgNpm, registry := [("$bcrypt", .constantDefn (.prim 9))], nextRef := 0 }

/-- An empty container configured the way the README documents npm prefixes,
via `npmPrefix`. -/
def sPreDoc : ContainerState :=
  { config := cfgNpmDoc, registry := [], nextRef := 0 }

/-- An empty container with the default configuration. -/
def sZeroEmpty : ContainerState := { config := cfg0, registry := [], nextRef := 0 }

/-- A topological rank for `sZero`: `Cat` above its dependency `Ball`. -/
def rankZero : String → Nat := fun n => if n = "Cat" then 1 else 0

/-! ## Helper lemmas about `kebabCase` -/

theorem kebabAux_run (l rest : List Char) (h : ∀ c ∈ l, isUpperOrDigit c = true) :
    kebabAux true (l ++ rest) = l.map Char.toLower ++ kebabAux true rest := by
  induction l with
  | nil => simp
  | cons c t ih =>
    have hc : isUpperOrDigit c = true := h c (List.mem_cons_self c t)
    simp [kebabAux, hc, ih fun x hx => h x (List.mem_cons_of_mem c hx)]

theorem kebabAux_dropWhile (t : List Char) :
    kebabAux true (t.dropWhile isUpperOrDigit) = kebabAux false (t.dropWhile isUpperOrDigit) := by
  induction t with
  | nil => rfl
  | cons c r ih =>
    by_cases hc : isUpperOrDigit c
    · rw [List.dropWhile_cons_of_pos hc]
      exact ih
    · rw [List.dropWhile_cons_of_neg hc]
      simp [kebabAux, hc]

theorem kebabAux_eq_kebabSpec (l : List Char) : kebabAux false l = kebabSpec l := by
  induction l using kebabSpec.induct with
  | case1 => simp [kebabAux, kebabSpec]
  | case2 c rest h ih =>
    have hrun : kebabAux true rest
        = (rest.takeWhile isUpperOrDigit).map Char.toLower
          ++ kebabAux true (rest.dropWhile isUpperOrDigit) := by
      conv_lhs => rw [← List.takeWhile_append_dropWhile (p := isUpperOrDigit) (l := rest)]
      exact kebabAux_run _ _ (fun x hx => List.mem_takeWhile_imp hx)
    rw [List.dropWhile_cons_of_pos h] at ih
    simp only [kebabSpec, h, dif_pos, List.takeWhile_cons_of_pos h,
      List.dropWhile_cons_of_pos h]
    simp [kebabAux, h, hrun, kebabAux_dropWhile rest, ih]
  | case3 c rest h ih =>
    simp only [kebabSpec, h, dif_neg]
    simp [kebabAux, h, ih]

/-- C7: `kebabCase` is a total function on strings that replaces every maximal
run of uppercase letters or digits by `-` followed by the lowercased run and
leaves every other character unchanged (`kebabSpec` is that description,
written from the spec); in particular `socketIo` maps to `socket-io` and
`appleOrange2` maps to `apple-orange-2`. -/
theorem kebabCase_matches_spec :
    (∀ s : String, kebabCase s = ⟨kebabSpec s.data⟩)
      ∧ kebabCase "socketIo" = "socket-io"
      ∧ kebabCase "appleOrange2" = "apple-orange-2" :=
  ⟨fun s => congrArg String.mk (kebabAux_eq_kebabSpec s.data), by rfl, by rfl⟩

/-! ## External-module resolution order (C3) -/

theorem getNodeModule_eq_externalLookupSpec (w : String → Option Value) (n : String) :
    getNodeModule w n = externalLookupSpec w n := by
  simp only [getNodeModule, externalLookupSpec, nodeModuleExists, requireModule]
  cases h1 : w n with
  | some v => simp [h1]
  | none =>
    cases h2 : w (kebabCase n) with
    | some v => simp [h1, h2]
    | none =>
      cases h3 : w (toDotCase (kebabCase n)) with
      | some v => simp [h1, h2, h3]
      | none => simp [h1, h2, h3]

/-- C3: external-module resolution tries the name verbatim, then
`toDashCase(name)`, then `toDotCase(toDashCase(name))`, in exactly that order,
loading the first variant the provider resolves and failing with
`ExternalModuleNotFoundError` when none resolve (`externalLookupSpec` states
that order, written from the spec); and whenever `get` misses the registry it
returns exactly this external resolution of the requested name. -/
theorem external_resolution_order :
    (∀ w n, getNodeModule w n = externalLookupSpec w n)
      ∧ (∀ w fuel s n, List.lookup n s.registry = none →
          get w (fuel + 1) s n = some (getNodeModule w n, s)) := by
  refine ⟨getNodeModule_eq_externalLookupSpec, ?_⟩
  intro w fuel s n h
  by_cases hbp : s.config.nodeModulePre ≠ "" ∧ startsWithStr n s.config.nodeModulePre
  · simp [get, hbp]
  · simp [get, hbp, h]

/-- Witness for C3 at a concrete input: in a container with an empty registry
and an npm world holding only `socket.io`, `get` on `socketIo` falls through to
external resolution, which loads `socket.io` (the third variant). -/
theorem external_resolution_order_witness :
    get wSock 1 sZeroEmpty "socketIo" = some (getNodeModule wSock "socketIo", sZeroEmpty)
      ∧ getNodeModule wSock "socketIo" = .ok (.prim 3) :=
  ⟨external_resolution_order.2 wSock 0 sZeroEmpty "socketIo" (by rfl), by rfl⟩

/-! ## Registration uniqueness (C4) -/

theorem lookup_append_single (r : List (String × Definition)) (n : String) (d : Definition)
    (h : List.lookup n r = none) : List.lookup n (r ++ [(n, d)]) = some d := by
  induction r with
  | nil => simp
  | cons p t ih =>
    obtain ⟨k, v⟩ := p
    by_cases hnk : n = k
    · subst hnk
      simp [List.lookup] at h
    · have hb : (n == k) = false := beq_false_of_ne hnk
      simp only [List.cons_append, List.lookup, hb] at h ⊢
      exact ih h

/-- C4: registering under a name already present fails with
`DuplicateNameError` (the model is pure, so the registry reaching the caller
is the untouched one); registering a name not yet present succeeds and binds
exactly that definition; and every registration operation (`addConstant`,
`addFunction`, `addFactory`, `_addClassDefinition`) funnels through
`_setDependency`, so the duplicate check governs all of them and names stay
globally unique within a container. -/
theorem register_duplicate_rejected :
    (∀ s n d₀ d, List.lookup n s.registry = some d₀ →
        _setDependency s n d = .error (.duplicateName n))
      ∧ (∀ s n d, List.lookup n s.registry = none →
          _setDependency s n d = .ok { s with registry := s.registry ++ [(n, d)] }
            ∧ List.lookup n (s.registry ++ [(n, d)]) = some d)
      ∧ (∀ s n v, addConstant s n v = _setDependency s n (.constantDefn v))
      ∧ (∀ s n v, addFunction s n v = _setDependency s n (.functionDefn v))
      ∧ (∀ s n f, addFactory s n f = _setDependency s n (.factoryDefn f))
      ∧ (∀ s raw params f sf, _addClassDefinition s raw params f sf
          = _setDependency s (_createDepName s raw)
              (.classDefn (getFunctionArgs params) f (isSingletonOf sf) none)) := by
  refine ⟨?_, ?_, fun _ _ _ => rfl, fun _ _ _ => rfl, fun _ _ _ => rfl,
    fun _ _ _ _ _ => rfl⟩
  · intro s n d₀ d h
    simp [_setDependency, h]
  · intro s n d h
    exact ⟨by simp [_setDependency, h], lookup_append_single _ _ _ h⟩

/-- Witness for C4 at concrete inputs: re-registering `Dog` in a container
that already has it fails with `DuplicateNameError`, registering `Dog` into an
empty container succeeds. -/
theorem register_duplicate_rejected_witness :
    _setDependency sZero "Dog" (.constantDefn (.prim 0)) = .error (.duplicateName "Dog")
      ∧ _setDependency sZeroEmpty "Dog" (.constantDefn (.prim 0))
          = .ok { sZeroEmpty with registry := [("Dog", .constantDefn (.prim 0))] } :=
  ⟨register_duplicate_rejected.1 sZero "Dog" (.classDefn none 1 true none)
      (.constantDefn (.prim 0)) (by rfl),
    (register_duplicate_rejected.2.1 sZeroEmpty "Dog" (.constantDefn (.prim 0)) (by rfl)).1⟩

/-! ## `getClass` dispatch (C5, C8) -/

/-- C5: `getClass` returns the raw registered constructible (not an instance)
for a class definition, fails with `NotFoundError` for a name absent from the
registry, and fails with `WrongKindError` for function and constant
definitions. -/
theorem getClass_kinds :
    (∀ s n, List.lookup n s.registry = none →
        getClass s n = .error (.notFoundUserModule n))
      ∧ (∀ s n a f sg i, List.lookup n s.registry = some (.classDefn a f sg i) →
          getClass s n = .ok (.classVal f))
      ∧ (∀ s n v, List.lookup n s.registry = some (.functionDefn v) →
          getClass s n = .error (.wrongKindFunction n))
      ∧ (∀ s n v, List.lookup n s.registry = some (.constantDefn v) →
          getClass s n = .error (.wrongKindConstant n)) := by
  refine ⟨?_, ?_, ?_, ?_⟩
  · intro s n h
    simp [getClass, h]
  · intro s n a f sg i h
    simp [getClass, h]
  · intro s n v h
    simp [getClass, h]
  · intro s n v h
    simp [getClass, h]

/-- Witness for C5 at concrete inputs on `sAll`. -/
theorem getClass_kinds_witness :
    getClass sAll "Zzz" = .error (.notFoundUserModule "Zzz")
      ∧ getClass sAll "K" = .ok (.classVal 3)
      ∧ getClass sAll "F" = .error (.wrongKindFunction "F")
      ∧ getClass sAll "C" = .error (.wrongKindConstant "C") :=
  ⟨getClass_kinds.1 sAll "Zzz" (by rfl),
    getClass_kinds.2.1 sAll "K" (some ["C"]) 3 true none (by rfl),
    getClass_kinds.2.2.1 sAll "F" (.prim 2) (by rfl),
    getClass_kinds.2.2.2 sAll "C" (.prim 1) (by rfl)⟩

/-- C8: `getClass` on a name registered as a factory definition raises no
error at all: only function and constant definitions are rejected, and a
factory definition has no `file` field, so the JS `undefined` is returned. -/
theorem getClass_factory_no_error :
    ∀ s n fb, List.lookup n s.registry = some (.factoryDefn fb) →
      getClass s n = .ok .undefined := by
  intro s n fb h
  simp [getClass, h]

/-- Witness for C8 at a concrete input: `getClass` on the registered factory
`Fac` of `sAll` returns `undefined` without error. -/
theorem getClass_factory_no_error_witness :
    getClass sAll "Fac" = .ok .undefined :=
  getClass_factory_no_error sAll "Fac" .freshObj (by rfl)

/-! ## Factory resolution (C6) -/

/-- C6: resolving a name registered as a factory invokes the registered
factory with the container itself as its sole argument and returns the
factory's result; the result is never cached (the registry after the call is
exactly the registry before it), so a factory that allocates a fresh object on
each invocation yields distinct results across repeated `get` calls. -/
theorem factory_uncached :
    (∀ w fuel s n fb,
        ¬(s.config.nodeModulePre ≠ "" ∧ startsWithStr n s.config.nodeModulePre) →
        List.lookup n s.registry = some (.factoryDefn fb) →
        get w (fuel + 1) s n = some (.ok (runFactory fb s).1, (runFactory fb s).2)
          ∧ (runFactory fb s).2.registry = s.registry)
      ∧ (∀ w fuel₁ fuel₂ s n,
          ¬(s.config.nodeModulePre ≠ "" ∧ startsWithStr n s.config.nodeModulePre) →
          List.lookup n s.registry = some (.factoryDefn .freshObj) →
          ∃ v₁ s₁ v₂ s₂,
            get w (fuel₁ + 1) s n = some (.ok v₁, s₁)
              ∧ get w (fuel₂ + 1) s₁ n = some (.ok v₂, s₂) ∧ v₁ ≠ v₂) := by
  have base : ∀ w fuel s n fb,
      ¬(s.config.nodeModulePre ≠ "" ∧ startsWithStr n s.config.nodeModulePre) →
      List.lookup n s.registry = some (.factoryDefn fb) →
      get w (fuel + 1) s n = some (.ok (runFactory fb s).1, (runFactory fb s).2) := by
    intro w fuel s n fb hbp h
    simp [get, hbp, h]
  refine ⟨fun w fuel s n fb hbp h => ⟨base w fuel s n fb hbp h, ?_⟩, ?_⟩
  · cases fb <;> rfl
  · intro w fuel₁ fuel₂ s n hbp h
    refine ⟨Value.obj 0 s.nextRef, { s with nextRef := s.nextRef + 1 },
      Value.obj 0 (s.nextRef + 1), { s with nextRef := s.nextRef + 2 }, ?_, ?_, ?_⟩
    · exact base w fuel₁ s n .freshObj hbp h
    · exact base w fuel₂ { s with nextRef := s.nextRef + 1 } n .freshObj hbp h
    · intro hv
      injection hv with h1 h2
      omega

/-- Witness for C6 at a concrete input: two `get` calls on the fresh-object
factory `Fac` of `sAll` return distinct values. -/
theorem factory_uncached_witness :
    ∃ v₁ s₁ v₂ s₂,
      get wEmpty 1 sAll "Fac" = some (.ok v₁, s₁)
        ∧ get wEmpty 1 s₁ "Fac" = some (.ok v₂, s₂) ∧ v₁ ≠ v₂ :=
  factory_uncached.2 wEmpty 0 0 sAll "Fac" (fun h => h.1 rfl) (by rfl)

/-! ## Singleton caching (C1) and npm-prefix stripping (C2): evaluations at
the failing inputs -/

/-- C1 (bug evaluation): `Dog` is a singleton class definition whose
constructor declares zero parameters (`args` introspected as `null`), yet two
`get` calls construct two distinct instances — the `new dependency.file()`
branch never writes the `instance` cache, contradicting the claim, the spec
and the README (`Once a singleton class is instantiated, it is cached`).  By
contrast the one-parameter singleton class `Cat` is cached: the second call
returns the identical instance and leaves the state untouched.  The final
conjunct records that a class with no explicit singleton override is
registered as a singleton. -/
theorem singleton_zero_arg_not_cached :
    (get wEmpty 3 sZero "Dog" = some (.ok (.obj 1 0), { sZero with nextRef := 1 })
      ∧ get wEmpty 3 { sZero with nextRef := 1 } "Dog"
          = some (.ok (.obj 1 1), { sZero with nextRef := 2 })
      ∧ Value.obj 1 0 ≠ Value.obj 1 1)
    ∧ (∃ s₁, get wEmpty 3 sZero "Cat" = some (.ok (.obj 2 0), s₁)
        ∧ get wEmpty 3 s₁ "Cat" = some (.ok (.obj 2 0), s₁))
    ∧ isSingletonOf none = true :=
  ⟨⟨by rfl, by rfl, by decide⟩,
    ⟨⟨cfg0,
      [("Dog", .classDefn none 1 true none),
       ("Cat", .classDefn (some ["Ball"]) 2 true (some (.obj 2 0))),
       ("Ball", .constantDefn (.prim 7))], 1⟩, by rfl, by rfl⟩,
    by rfl⟩

/-- C2 (bug evaluation): with `nodeModulePrefix` configured as `$` and npm
module `bcrypt` installed, `get("$bcrypt")` does bypass the local registry
(the locally registered `$bcrypt` constant is ignored) but passes the name
UNstripped to `_getNodeModule`, which therefore fails with
`ExternalModuleNotFoundError("$bcrypt")` — while the stripped name `bcrypt`
would have resolved (second conjunct).  Third conjunct: configuring the
documented key `npmPrefix` (README: `new Container({npmPrefix: '$'})`) does
not help either, because `get` reads `config.nodeModulePrefix`, a key the
constructor never defaults, so `$bcrypt` again fails instead of loading
`bcrypt`. -/
theorem npm_prefix_not_stripped :
    get wBcrypt 1 sPre "$bcrypt"
        = some (.error (.externalModuleNotFound "$bcrypt"), sPre)
      ∧ getNodeModule wBcrypt "bcrypt" = .ok (.prim 1)
      ∧ get wBcrypt 1 sPreDoc "$bcrypt"
          = some (.error (.externalModuleNotFound "$bcrypt"), sPreDoc) :=
  ⟨by rfl, by rfl, by rfl⟩

/-! ## Frame property of resolution (C9) -/

theorem get_zero (w : String → Option Value) (s : ContainerState) (n : String) :
    get w 0 s n = none := rfl

theorem get_succ (w : String → Option Value) (fuel : Nat) (s : ContainerState) (n : String) :
    get w (fuel + 1) s n =
      if s.config.nodeModulePre ≠ "" ∧ startsWithStr n s.config.nodeModulePre then
        some (getNodeModule w n, s)
      else
        match List.lookup n s.registry with
        | none => some (getNodeModule w n, s)
        | some (.functionDefn f) => some (.ok f, s)
        | some (.constantDefn c) => some (.ok c, s)
        | some (.factoryDefn fb) => some (.ok (runFactory fb s).1, (runFactory fb s).2)
        | some (.classDefn argsOpt file sing inst) =>
          match cachedOf sing inst with
          | some v => some (.ok v, s)
          | none =>
            match argsOpt with
            | some argNames =>
              match resolveArgsWith (get w fuel) s argNames with
              | none => none
              | some (.error e, s1) => some (.error e, s1)
              | some (.ok _vals, s1) =>
                some (.ok (Value.obj file s1.nextRef),
                  if sing then
                    { s1 with
                      nextRef := s1.nextRef + 1,
                      registry := setInstance s1.registry n (Value.obj file s1.nextRef) }
                  else { s1 with nextRef := s1.nextRef + 1 })
            | none =>
              some (.ok (Value.obj file s.nextRef), { s with nextRef := s.nextRef + 1 }) :=
  rfl

theorem defFrame_refl (d : Definition) : defFrame d d := Or.inl rfl

theorem defFrame_trans {a b c : Definition} (h1 : defFrame a b) (h2 : defFrame b c) :
    defFrame a c := by
  rcases h1 with rfl | ⟨x, f, i, v, rfl, rfl⟩
  · exact h2
  · rcases h2 with rfl | ⟨x', f', i', v', he, rfl⟩
    · exact Or.inr ⟨x, f, i, v, rfl, rfl⟩
    · injection he with hx hf hs hi
      subst hx
      subst hf
      exact Or.inr ⟨x, f, i, v', rfl, rfl⟩

theorem regFrame_refl (r : List (String × Definition)) : regFrame r r :=
  List.forall₂_same.2 fun p _ => ⟨rfl, defFrame_refl p.2⟩

theorem regFrame_trans {r1 r2 r3 : List (String × Definition)}
    (h1 : regFrame r1 r2) (h2 : regFrame r2 r3) : regFrame r1 r3 := by
  induction h1 generalizing r3 with
  | nil =>
    cases h2
    exact List.Forall₂.nil
  | cons hpq h1' ih =>
    cases h2 with
    | cons hqr h2' =>
      exact List.Forall₂.cons ⟨hpq.1.trans hqr.1, defFrame_trans hpq.2 hqr.2⟩ (ih h2')

theorem regFrame_lookup {r r' : List (String × Definition)} (h : regFrame r r') :
    ∀ n d, List.lookup n r = some d → ∃ d', List.lookup n r' = some d' ∧ defFrame d d' := by
  induction h with
  | nil =>
    intro n d hl
    simp at hl
  | @cons p q t t' hpq htail ih =>
    intro n d hl
    obtain ⟨k, dv⟩ := p
    obtain ⟨k', dv'⟩ := q
    have hk : k = k' := hpq.1
    subst hk
    by_cases hnk : n = k
    · subst hnk
      simp [List.lookup] at hl ⊢
      exact hl ▸ hpq.2
    · have hb : (n == k) = false := beq_false_of_ne hnk
      simp only [List.lookup, hb] at hl ⊢
      exact ih n d hl

theorem regFrame_lookup_rev {r r' : List (String × Definition)} (h : regFrame r r') :
    ∀ n d', List.lookup n r' = some d' → ∃ d, List.lookup n r = some d ∧ defFrame d d' := by
  induction h with
  | nil =>
    intro n d' hl
    simp at hl
  | @cons p q t t' hpq htail ih =>
    intro n d' hl
    obtain ⟨k, dv⟩ := p
    obtain ⟨k', dv'⟩ := q
    have hk : k = k' := hpq.1
    subst hk
    by_cases hnk : n = k
    · subst hnk
      simp [List.lookup] at hl ⊢
      exact hl ▸ hpq.2
    · have hb : (n == k) = false := beq_false_of_ne hnk
      simp only [List.lookup, hb] at hl ⊢
      exact ih n d' hl

theorem regFrame_setInstance {r : List (String × Definition)} {n : String}
    {a : Option (List String)} {f : Nat} {i : Option Value}
    (hl : List.lookup n r = some (.classDefn a f true i)) (v : Value) :
    regFrame r (setInstance r n v) := by
  induction r with
  | nil => simp at hl
  | cons p t ih =>
    obtain ⟨k, dv⟩ := p
    by_cases hnk : n = k
    · subst hnk
      simp [List.lookup] at hl
      subst hl
      have hsi : setInstance ((n, Definition.classDefn a f true i) :: t) n v
          = (n, Definition.classDefn a f true (some v)) :: t := by
        simp [setInstance]
      rw [hsi]
      exact List.Forall₂.cons ⟨rfl, Or.inr ⟨a, f, i, v, rfl, rfl⟩⟩ (regFrame_refl t)
    · have hb : (n == k) = false := beq_false_of_ne hnk
      have hbk : (k == n) = false := beq_false_of_ne (Ne.symm hnk)
      simp only [List.lookup, hb] at hl
      have hsi : setInstance ((k, dv) :: t) n v = (k, dv) :: setInstance t n v := by
        simp [setInstance, hbk]
      rw [hsi]
      exact List.Forall₂.cons ⟨rfl, defFrame_refl dv⟩ (ih hl)

theorem runFactory_registry (fb : FactoryBehavior) (s : ContainerState) :
    (runFactory fb s).2.registry = s.registry := by
  cases fb <;> rfl

theorem resolveArgsWith_frame
    {g : ContainerState → String → Option (Except Err Value × ContainerState)}
    (hg : ∀ s a r s', g s a = some (r, s') → regFrame s.registry s'.registry) :
    ∀ names s r s', resolveArgsWith g s names = some (r, s') →
      regFrame s.registry s'.registry := by
  intro names
  induction names with
  | nil =>
    intro s r s' h
    simp only [resolveArgsWith] at h
    obtain ⟨-, rfl⟩ := Prod.mk.injEq .. ▸ Option.some.inj h
    exact regFrame_refl _
  | cons a rest ih =>
    intro s r s' h
    cases hga : g s a with
    | none =>
      simp only [resolveArgsWith, hga] at h
      exact Option.noConfusion h
    | some pr =>
      obtain ⟨rv, s1⟩ := pr
      have f1 : regFrame s.registry s1.registry := hg s a rv s1 hga
      cases rv with
      | error e =>
        simp only [resolveArgsWith, hga] at h
        obtain ⟨-, rfl⟩ := Prod.mk.injEq .. ▸ Option.some.inj h
        exact f1
      | ok v =>
        cases hrest : resolveArgsWith g s1 rest with
        | none =>
          simp only [resolveArgsWith, hga, hrest] at h
          exact Option.noConfusion h
        | some pr2 =>
          obtain ⟨rv2, s2⟩ := pr2
          simp only [resolveArgsWith, hga, hrest] at h
          cases rv2 with
          | error e =>
            obtain ⟨-, rfl⟩ := Prod.mk.injEq .. ▸ Option.some.inj h
            exact regFrame_trans f1 (ih s1 _ _ hrest)
          | ok vs =>
            obtain ⟨-, rfl⟩ := Prod.mk.injEq .. ▸ Option.some.inj h
            exact regFrame_trans f1 (ih s1 _ _ hrest)

theorem get_frame (w : String → Option Value) :
    ∀ fuel s n r s', get w fuel s n = some (r, s') → regFrame s.registry s'.registry := by
  intro fuel
  induction fuel with
  | zero =>
    intro s n r s' h
    rw [get_zero] at h
    exact absurd h (by simp)
  | succ fuel ih =>
    intro s n r s' h
    rw [get_succ] at h
    by_cases hbp : s.config.nodeModulePre ≠ "" ∧ startsWithStr n s.config.nodeModulePre
    · rw [if_pos hbp] at h
      obtain ⟨-, rfl⟩ := Prod.mk.injEq .. ▸ Option.some.inj h
      exact regFrame_refl _
    · rw [if_neg hbp] at h
      cases hlook : List.lookup n s.registry with
      | none =>
        simp only [hlook] at h
        obtain ⟨-, rfl⟩ := Prod.mk.injEq .. ▸ Option.some.inj h
        exact regFrame_refl _
      | some dep =>
        cases dep with
        | functionDefn f =>
          simp only [hlook] at h
          obtain ⟨-, rfl⟩ := Prod.mk.injEq .. ▸ Option.some.inj h
          exact regFrame_refl _
        | constantDefn c =>
          simp only [hlook] at h
          obtain ⟨-, rfl⟩ := Prod.mk.injEq .. ▸ Option.some.inj h
          exact regFrame_refl _
        | factoryDefn fb =>
          simp only [hlook] at h
          obtain ⟨-, rfl⟩ := Prod.mk.injEq .. ▸ Option.some.inj h
          rw [runFactory_registry]
          exact regFrame_refl _
        | classDefn argsOpt file sing inst =>
          simp only [hlook] at h
          cases hc : cachedOf sing inst with
          | some v =>
            simp only [hc] at h
            obtain ⟨-, rfl⟩ := Prod.mk.injEq .. ▸ Option.some.inj h
            exact regFrame_refl _
          | none =>
            simp only [hc] at h
            cases argsOpt with
            | none =>
              obtain ⟨-, rfl⟩ := Prod.mk.injEq .. ▸ Option.some.inj h
              exact regFrame_refl _
            | some argNames =>
              cases hres : resolveArgsWith (get w fuel) s argNames with
              | none =>
                simp only [hres] at h
                exact Option.noConfusion h
              | some pr =>
                obtain ⟨rv, s1⟩ := pr
                simp only [hres] at h
                have f1 : regFrame s.registry s1.registry :=
                  resolveArgsWith_frame (fun s0 a r0 s0' hg => ih s0 a r0 s0' hg)
                    argNames s rv s1 hres
                cases rv with
                | error e =>
                  obtain ⟨-, rfl⟩ := Prod.mk.injEq .. ▸ Option.some.inj h
                  exact f1
                | ok vals =>
                  obtain ⟨-, rfl⟩ := Prod.mk.injEq .. ▸ Option.some.inj h
                  cases sing with
                  | false => exact f1
                  | true =>
                    obtain ⟨d', hld', hdf⟩ :=
                      regFrame_lookup f1 n (.classDefn (some argNames) file true inst) hlook
                    rcases hdf with heq | ⟨a', f', i', v', hd, hd'⟩
                    · rw [heq] at hld'
                      exact regFrame_trans f1 (regFrame_setInstance hld' _)
                    · rw [hd'] at hld'
                      exact regFrame_trans f1 (regFrame_setInstance hld' _)

/-- C9: resolution never adds a registry entry, removes one, or changes an
existing definition's kind, registered value, constructible, singleton flag or
declared parameter list: whenever `get` returns (a value or a thrown error),
the new registry has the same names in the same order and every definition is
unchanged except that a singleton class definition's `instance` cache may have
been written (`regFrame`); `getClass` takes the state immutably by its very
type. -/
theorem get_registry_frame :
    ∀ w fuel s n r s', get w fuel s n = some (r, s') →
      regFrame s.registry s'.registry :=
  fun w => get_frame w

/-- Witness for C9 at a concrete input: resolving `Cat` in `sZero` yields a
registry related to the original by `regFrame` (only `Cat`'s instance cache
was written). -/
theorem get_registry_frame_witness :
    regFrame sZero.registry
      [("Dog", .classDefn none 1 true none),
       ("Cat", .classDefn (some ["Ball"]) 2 true (some (.obj 2 0))),
       ("Ball", .constantDefn (.prim 7))] :=
  get_registry_frame wEmpty 3 sZero "Cat" (.ok (.obj 2 0))
    ⟨cfg0,
      [("Dog", .classDefn none 1 true none),
       ("Cat", .classDefn (some ["Ball"]) 2 true (some (.obj 2 0))),
       ("Ball", .constantDefn (.prim 7))], 1⟩ (by rfl)

/-! ## Termination on acyclic dependency graphs (C10) -/

theorem ranked_of_regFrame {rank : String → Nat} {r r' : List (String × Definition)}
    (h : regFrame r r') (hr : ranked rank r) : ranked rank r' := by
  intro n args f sg i hl a ha
  obtain ⟨d, hld, hdf⟩ := regFrame_lookup_rev h n _ hl
  rcases hdf with heq | ⟨a0, f0, i0, v0, hd, hd'⟩
  · rw [← heq] at hld
    exact hr n args f sg i hld a ha
  · injection hd' with h1 h2 h3 h4
    subst h1
    subst h2
    rw [hd] at hld
    exact hr n args f true i0 hld a ha

theorem resolveArgsWith_total
    {g : ContainerState → String → Option (Except Err Value × ContainerState)}
    (P : ContainerState → Prop)
    (hpres : ∀ s a r s', g s a = some (r, s') → P s → P s') :
    ∀ names : List String,
      (∀ a ∈ names, ∀ s, P s → (g s a).isSome) →
      ∀ s, P s → (resolveArgsWith g s names).isSome := by
  intro names
  induction names with
  | nil =>
    intro _ s _
    simp [resolveArgsWith]
  | cons a rest ih =>
    intro htot s hP
    have h1 : (g s a).isSome := htot a (List.mem_cons_self a rest) s hP
    obtain ⟨pr, hga⟩ := Option.isSome_iff_exists.1 h1
    obtain ⟨rv, s1⟩ := pr
    cases rv with
    | error e => simp [resolveArgsWith, hga]
    | ok v =>
      have hP1 : P s1 := hpres s a _ s1 hga hP
      have h2 := ih (fun a' ha' => htot a' (List.mem_cons_of_mem a ha')) s1 hP1
      obtain ⟨pr2, hrest⟩ := Option.isSome_iff_exists.1 h2
      obtain ⟨rv2, s2⟩ := pr2
      cases rv2 <;> simp [resolveArgsWith, hga, hrest]

theorem get_succ_class (w : String → Option Value) (fuel : Nat) (s : ContainerState)
    (n : String) (argsOpt : Option (List String)) (file : Nat) (sing : Bool)
    (inst : Option Value)
    (hbp : ¬(s.config.nodeModulePre ≠ "" ∧ startsWithStr n s.config.nodeModulePre))
    (hlook : List.lookup n s.registry = some (.classDefn argsOpt file sing inst)) :
    get w (fuel + 1) s n = classResolve w fuel s n argsOpt file sing inst := by
  rw [get_succ, if_neg hbp, hlook]
  rfl

theorem get_total (w : String → Option Value) (rank : String → Nat) :
    ∀ fuel n s, ranked rank s.registry → rank n < fuel → (get w fuel s n).isSome := by
  intro fuel
  induction fuel with
  | zero =>
    intro n s _ h
    exact absurd h (Nat.not_lt_zero _)
  | succ fuel ih =>
    intro n s hR hlt
    by_cases hbp : s.config.nodeModulePre ≠ "" ∧ startsWithStr n s.config.nodeModulePre
    · rw [get_succ, if_pos hbp]
      rfl
    · cases hlook : List.lookup n s.registry with
      | none =>
        rw [get_succ, if_neg hbp, hlook]
        rfl
      | some dep =>
        cases dep with
        | functionDefn f =>
          rw [get_succ, if_neg hbp, hlook]
          rfl
        | constantDefn c =>
          rw [get_succ, if_neg hbp, hlook]
          rfl
        | factoryDefn fb =>
          rw [get_succ, if_neg hbp, hlook]
          rfl
        | classDefn argsOpt file sing inst =>
          rw [get_succ_class w fuel s n argsOpt file sing inst hbp hlook]
          cases hc : cachedOf sing inst with
          | some v => simp [classResolve, hc]
          | none =>
            cases argsOpt with
            | none => simp [classResolve, hc]
            | some argNames =>
              have hargs : ∀ a ∈ argNames, rank a < rank n :=
                hR n argNames file sing inst hlook
              have htot : ∀ a ∈ argNames, ∀ s', ranked rank s'.registry →
                  (get w fuel s' a).isSome :=
                fun a ha s' hR' =>
                  ih a s' hR' (lt_of_lt_of_le (hargs a ha) (Nat.lt_succ_iff.mp hlt))
              have hres := resolveArgsWith_total (fun st => ranked rank st.registry)
                (fun s0 a r0 s0' hg hP =>
                  ranked_of_regFrame (get_frame w fuel s0 a r0 s0' hg) hP)
                argNames htot s hR
              obtain ⟨pr, hr2⟩ := Option.isSome_iff_exists.1 hres
              obtain ⟨rv, s1⟩ := pr
              simp only [classResolve, hc, hr2]
              cases rv <;> rfl

/-- C10: for every container whose class-definition dependency graph is
acyclic — witnessed by a topological rank under which every declared
constructor-parameter name of a registered class ranks strictly below the
class's own name (`ranked`) — `get` terminates on every requested name: some
finite fuel suffices for it to return, either a value or a raised error
(`Except`), rather than running out of fuel. -/
theorem get_terminates_acyclic :
    ∀ w s rank, ranked rank s.registry →
      ∀ n, ∃ fuel r s', get w fuel s n = some (r, s') := by
  intro w s rank hR n
  have h := get_total w rank (rank n + 1) n s hR (Nat.lt_succ_self _)
  obtain ⟨pr, hr⟩ := Option.isSome_iff_exists.1 h
  obtain ⟨r, s'⟩ := pr
  exact ⟨rank n + 1, r, s', hr⟩

theorem ranked_sZero : ranked rankZero sZero.registry := by
  intro n args f sg i h a ha
  simp only [sZero, List.lookup] at h
  by_cases h1 : n = "Dog"
  · subst h1
    simp at h
  · have hb1 : (n == "Dog") = false := beq_false_of_ne h1
    rw [hb1] at h
    by_cases h2 : n = "Cat"
    · subst h2
      simp at h
      obtain ⟨hargs, -, -, -⟩ := h
      rw [← hargs] at ha
      simp at ha
      subst ha
      simp [rankZero]
    · have hb2 : (n == "Cat") = false := beq_false_of_ne h2
      rw [hb2] at h
      by_cases h3 : n = "Ball"
      · subst h3
        simp at h
      · have hb3 : (n == "Ball") = false := beq_false_of_ne h3
        rw [hb3] at h
        exact absurd h (by simp)

/-- Witness for C10 at a concrete input: the acyclic container `sZero`
(`Cat` depends on `Ball`) resolves `Cat` within some finite fuel. -/
theorem get_terminates_acyclic_witness :
    ∃ fuel r s', get wEmpty fuel sZero "Cat" = some (r, s') :=
  get_terminates_acyclic wEmpty sZero rankZero ranked_sZero "Cat"

end PowerDI
